import Mathlib

/-!
Shallow embedding of the sangokushi-optimizer core (the combination
`Solver` of `src/unnamed/part_003` and the `TraitsManager` of
`src/unnamed/part_002`), together with theorems settling the frozen
claims about its specification.

Modelling decisions, uniform throughout:
* JS objects used as string-keyed tables (`buildingsBySlot`, `traitEffects`)
  are association lists `List (String × _)`; `obj[k]` is `List.lookup`
  and `obj[k] || []` is `(·.lookup k).getD []`.
* `Object.entries(enabledSlots).forEach` iterates entries in insertion
  order, so `enabledSlots` is an ordered `List (String × Bool)`.
* All stats are `Nat`: the spec's data model declares the four base
  stats and all defined trait bonuses to be non-negative integers.
* A missing numeric target (`targets.x || 0`) is `Option Nat` with
  `Option.getD 0`.
* `Array.prototype.sort` with the comparator
  `(a, b) => b.thresholdScore - a.thresholdScore` is, per the ECMAScript
  specification, a stable sort for this consistent comparator; a stable
  sort's output is uniquely determined by the induced total preorder and
  the input order, so it is modelled by `List.insertionSort` with the
  relation `fun a b => b.thresholdScore ≤ a.thresholdScore`, which is
  stable for that preorder.
* `results.slice(0, maxResults)` keeps the JS semantics for a negative
  bound: `maxResults` stays an `Int` and `jsSliceTo` clamps exactly the
  way `Array.prototype.slice` resolves a negative end index.
-/

/-- A building record, as produced by `CSVParser.createBuilding`
(`src/unnamed/part_000`): row id, display name, type (slot category),
position tag, four non-negative base stats, and a trait name where the
empty string means "no trait". -/
structure Building where
  id : Nat
  name : String
  type : String
  position : String
  agriculture : Nat
  mining : Nat
  military : Nat
  commerce : Nat
  trait : String
deriving DecidableEq, Repr

/-- A trait's effect, as produced by `TraitsManager.parseCSV`
(`src/unnamed/part_002`): four non-negative numeric bonuses plus an
optional free-text extra effect where the empty string means "none". -/
structure TraitEffect where
  agriculture : Nat
  mining : Nat
  military : Nat
  commerce : Nat
  extraEffect : String
deriving DecidableEq, Repr

/-- The trait table: trait name → effect, a JS object modelled as an
association list with `List.lookup`. -/
abbrev TraitTable := List (String × TraitEffect)

/-- The per-slot candidate catalogue: physical slot name → candidate
buildings list. -/
abbrev BuildingsBySlot := List (String × List Building)

/-- Aggregate totals `{ agriculture, mining, military, commerce }`. -/
structure Totals where
  agriculture : Nat
  mining : Nat
  military : Nat
  commerce : Nat
deriving DecidableEq, Repr

/-- The target vector; `none` models a field missing from the JS
`targets` object (the code reads every field as `targets.x || 0`). -/
structure Targets where
  agriculture : Option Nat
  mining : Option Nat
  military : Option Nat
  commerce : Option Nat
deriving DecidableEq, Repr

namespace TraitsManager

/-- One step of the `selectedBuildings.forEach` accumulation in
`TraitsManager.calculateTraitBonus`: if the building has a non-empty
trait name (JS truthiness of `building.trait`) that is present in the
table (truthiness of `effects[building.trait]`), add the effect's four
numeric fields to the running bonus. -/
def bonusStep (traitEffects : TraitTable) (bonus : Totals) (building : Building) : Totals :=
  if building.trait ≠ "" then
    match traitEffects.lookup building.trait with
    | some effect =>
        { agriculture := bonus.agriculture + effect.agriculture
          mining := bonus.mining + effect.mining
          military := bonus.military + effect.military
          commerce := bonus.commerce + effect.commerce }
    | none => bonus
  else bonus

/-- `TraitsManager.calculateTraitBonus` (`src/unnamed/part_002`, lines
105–125), with the `this.traits` fallback ignored because the Solver
always passes the table explicitly. -/
def calculateTraitBonus (selectedBuildings : List Building) (traitEffects : TraitTable) : Totals :=
  selectedBuildings.foldl (bonusStep traitEffects) ⟨0, 0, 0, 0⟩

/-- The `parts` array built by `TraitsManager.getTraitDescription`: one
`"農+n"`-style entry per non-zero numeric field, in source order. -/
def descParts (effect : TraitEffect) : List String :=
  (if effect.agriculture ≠ 0 then ["農+" ++ toString effect.agriculture] else []) ++
  (if effect.mining ≠ 0 then ["礦+" ++ toString effect.mining] else []) ++
  (if effect.military ≠ 0 then ["軍+" ++ toString effect.military] else []) ++
  (if effect.commerce ≠ 0 then ["商+" ++ toString effect.commerce] else [])

/-- `TraitsManager.getTraitDescription` (`src/unnamed/part_002`, lines
155–173) — the version of `TraitsManager` the application actually loads
(`app.js` calls `loadFromURL`/`getExtraEffects`, defined only there);
`this.traits` is passed explicitly as `traits`. Branches: no trait →
`""`; unknown trait → name plus the unknown-trait marker; otherwise the
joined non-zero parts, falling back to the extra effect and then to the
bare trait name. -/
def getTraitDescription (building : Building) (traits : TraitTable) : String :=
  if building.trait = "" then ""
  else
    match traits.lookup building.trait with
    | none => building.trait ++ " (未知特性)"
    | some effect =>
        let parts := descParts effect
        if parts = [] ∧ effect.extraEffect ≠ "" then
          building.trait ++ ": " ++ effect.extraEffect
        else if parts = [] then building.trait
        else building.trait ++ ": " ++ String.intercalate " " parts

end TraitsManager

namespace Solver

/-- `Solver.THRESHOLDS`. -/
def THRESHOLDS : List Nat := [15, 50, 75, 100]

/-- `Solver.countThresholds` (`src/unnamed/part_003`, lines 15–21): the
`for … of` loop over `THRESHOLDS` incrementing a counter. -/
def countThresholds (value : Nat) : Nat :=
  THRESHOLDS.foldl (fun count threshold => if value ≥ threshold then count + 1 else count) 0

/-- `Solver.calculateThresholdScore` (lines 28–33). -/
def calculateThresholdScore (totals : Totals) : Nat :=
  countThresholds totals.agriculture + countThresholds totals.mining +
    countThresholds totals.military + countThresholds totals.commerce

/-- The base-stat accumulation loop of `Solver.calculateTotals`. -/
def baseStep (t : Totals) (b : Building) : Totals :=
  { agriculture := t.agriculture + b.agriculture
    mining := t.mining + b.mining
    military := t.military + b.military
    commerce := t.commerce + b.commerce }

/-- `Solver.calculateTotals` (lines 41–65): sum the base stats of the
chosen buildings, then add the trait bonus from
`TraitsManager.calculateTraitBonus`. -/
def calculateTotals (buildings : List Building) (traitEffects : TraitTable) : Totals :=
  let totals := buildings.foldl baseStep ⟨0, 0, 0, 0⟩
  let traitBonus := TraitsManager.calculateTraitBonus buildings traitEffects
  { agriculture := totals.agriculture + traitBonus.agriculture
    mining := totals.mining + traitBonus.mining
    military := totals.military + traitBonus.military
    commerce := totals.commerce + traitBonus.commerce }

/-- `Solver.meetTargets` (lines 73–78): every stat total at least the
corresponding target, a missing target read as 0. -/
def meetTargets (totals : Totals) (targets : Targets) : Bool :=
  decide (totals.agriculture ≥ targets.agriculture.getD 0) &&
  decide (totals.mining ≥ targets.mining.getD 0) &&
  decide (totals.military ≥ targets.military.getD 0) &&
  decide (totals.commerce ≥ targets.commerce.getD 0)

/-- The `slotMapping` table inside `Solver.search` and
`Solver.estimateCombinations`: logical slot name → physical slot key. -/
def slotMapping (slot : String) : Option String :=
  if slot = "mainHall" then some "主殿"
  else if slot = "cityWall" then some "城牆"
  else if slot = "plaza" then some "廣場"
  else if slot = "westMarket1" then some "西坊"
  else if slot = "westMarket2" then some "西市"
  else if slot = "eastMarket1" then some "東坊"
  else if slot = "eastMarket2" then some "東市"
  else none

/-- The `Object.entries(enabledSlots).forEach` filter in `Solver.search`
(lines 105–118): keep, in entry order, each enabled slot known to
`slotMapping` whose candidate list (`buildingsBySlot[key] || []`) is
non-empty, pairing the physical key (pushed to `slotNames`) with the
list (pushed to `slots`). -/
def resolvedSlots (buildingsBySlot : BuildingsBySlot) (enabledSlots : List (String × Bool)) :
    List (String × List Building) :=
  enabledSlots.filterMap fun p =>
    if p.2 then
      match slotMapping p.1 with
      | some key =>
          let buildings := (buildingsBySlot.lookup key).getD []
          if buildings.length > 0 then some (key, buildings) else none
      | none => none
    else none

/-- `Solver.generateCombinations` (lines 158–169), as the pure list of
combinations it emits, in depth-first slot-major order: the first slot's
candidates vary slowest, exactly the emission order of the recursive
`for … of` loops. -/
def generateCombinations : List (List Building) → List (List Building)
  | [] => [[]]
  | s :: rest => s.flatMap fun b => (generateCombinations rest).map fun c => b :: c

mutual

/-- `Solver.generateCombinations` again, but with the mutable `current`
array threaded explicitly: returns the emitted combinations together
with the final value of `current`. The `[]` case models
`callback([...current])`. -/
def generateCombinationsSt : List (List Building) → List Building →
    List (List Building) × List Building
  | [], current => ([current], current)
  | s :: rest, current => genLoop s rest current
termination_by slots _ => (slots.length, 0)

/-- The `for (const building of slots[index])` loop of
`generateCombinationsSt`: `current.push(building)` appends at the end,
the recursive call runs, and `current.pop()` drops the last element. -/
def genLoop : List Building → List (List Building) → List Building →
    List (List Building) × List Building
  | [], _, current => ([], current)
  | b :: bs, rest, current =>
      let r := generateCombinationsSt rest (current ++ [b])
      let r2 := genLoop bs rest r.2.dropLast
      (r.1 ++ r2.1, r2.2)
termination_by s rest _ => (rest.length, s.length)

end

end Solver

/-- One `{ slot, building }` entry of a result's `buildings` array. -/
structure SlotAssignment where
  slot : String
  building : Building
deriving DecidableEq, Repr

/-- The four per-stat threshold counts of a result's
`thresholdDetails`. -/
structure ThresholdDetails where
  agriculture : Nat
  mining : Nat
  military : Nat
  commerce : Nat
deriving DecidableEq, Repr

/-- One element of the array returned by `Solver.search`. -/
structure CombinationResult where
  buildings : List SlotAssignment
  totals : Totals
  thresholdScore : Nat
  thresholdDetails : ThresholdDetails
deriving DecidableEq, Repr

/-- `Array.prototype.slice(0, e)`: a negative end index counts from the
end of the array (clamped at 0), a non-negative one is clamped at the
length — in both cases a `take`. -/
def jsSliceTo (l : List α) (e : Int) : List α :=
  if e < 0 then l.take ((l.length : Int) + e).toNat else l.take e.toNat

namespace Solver

/-- The combinations the depth-first enumeration inside `Solver.search`
actually emits: none when the resolved slot list is empty (the code
returns `[]` before calling `generateCombinations`), otherwise every
combination over the resolved candidate lists. -/
def enumeratedCombinations (buildingsBySlot : BuildingsBySlot)
    (enabledSlots : List (String × Bool)) : List (List Building) :=
  let resolved := resolvedSlots buildingsBySlot enabledSlots
  if resolved.length = 0 then [] else generateCombinations (resolved.map (·.2))

/-- The combinations `Solver.search` keeps: the enumerated ones whose
totals meet the targets. -/
def keptCombinations (buildingsBySlot : BuildingsBySlot)
    (enabledSlots : List (String × Bool)) (targets : Targets)
    (traitEffects : TraitTable) : List (List Building) :=
  (enumeratedCombinations buildingsBySlot enabledSlots).filter fun combination =>
    meetTargets (calculateTotals combination traitEffects) targets

/-- The result record `Solver.search` pushes for one kept combination
(lines 126–141): the buildings tagged with the physical slot names by
index, the totals, the threshold score and the per-stat counts. -/
def buildResult (slotNames : List String) (combination : List Building)
    (traitEffects : TraitTable) : CombinationResult :=
  let totals := calculateTotals combination traitEffects
  { buildings := List.zipWith (fun b n => ⟨n, b⟩) combination slotNames
    totals := totals
    thresholdScore := calculateThresholdScore totals
    thresholdDetails :=
      { agriculture := countThresholds totals.agriculture
        mining := countThresholds totals.mining
        military := countThresholds totals.military
        commerce := countThresholds totals.commerce } }

/-- The unsorted `results` array of `Solver.search`, in emission
order. -/
def searchResults (buildingsBySlot : BuildingsBySlot)
    (enabledSlots : List (String × Bool)) (targets : Targets)
    (traitEffects : TraitTable) : List CombinationResult :=
  (keptCombinations buildingsBySlot enabledSlots targets traitEffects).map fun combination =>
    buildResult ((resolvedSlots buildingsBySlot enabledSlots).map (·.1)) combination traitEffects

/-- The comparator `(a, b) => b.thresholdScore - a.thresholdScore` of
`results.sort`, as the total preorder it induces: `a` sorts no later
than `b` iff `b.thresholdScore ≤ a.thresholdScore`. -/
def scoreGE (a b : CombinationResult) : Prop :=
  b.thresholdScore ≤ a.thresholdScore

instance : DecidableRel scoreGE := fun a b =>
  inferInstanceAs (Decidable (b.thresholdScore ≤ a.thresholdScore))

/-- `results` after the in-place stable `results.sort(...)`. -/
def sortedResults (buildingsBySlot : BuildingsBySlot)
    (enabledSlots : List (String × Bool)) (targets : Targets)
    (traitEffects : TraitTable) : List CombinationResult :=
  (searchResults buildingsBySlot enabledSlots targets traitEffects).insertionSort scoreGE

/-- `Solver.search` (`src/unnamed/part_003`, lines 89–149): resolve the
enabled slots, enumerate, total, filter, build results, sort by
threshold score descending, and return `results.slice(0, maxResults)`.
The JS default `maxResults = 5` is passed explicitly. -/
def search (buildingsBySlot : BuildingsBySlot) (enabledSlots : List (String × Bool))
    (targets : Targets) (traitEffects : TraitTable) (maxResults : Int) :
    List CombinationResult :=
  jsSliceTo (sortedResults buildingsBySlot enabledSlots targets traitEffects) maxResults

/-- One step of the `Object.entries(enabledSlots).forEach` loop of
`Solver.estimateCombinations`: multiply in the candidate-list length of
an enabled, known slot whose list is non-empty. -/
def estimateStep (buildingsBySlot : BuildingsBySlot) (total : Nat) (p : String × Bool) : Nat :=
  match p.2, slotMapping p.1 with
  | true, some key =>
      let buildings := (buildingsBySlot.lookup key).getD []
      if buildings.length > 0 then total * buildings.length else total
  | _, _ => total

/-- `Solver.estimateCombinations` (lines 200–223): starting from 1, fold
`estimateStep` over the enabled-slot entries. -/
def estimateCombinations (buildingsBySlot : BuildingsBySlot)
    (enabledSlots : List (String × Bool)) : Nat :=
  enabledSlots.foldl (estimateStep buildingsBySlot) 1

end Solver

/-- The read-only inputs of one `Solver.search` invocation, gathered in
one record so the absence of mutation can be stated as state
threading. -/
structure SearchInputs where
  buildingsBySlot : BuildingsBySlot
  enabledSlots : List (String × Bool)
  targets : Targets
  traitEffects : TraitTable
deriving DecidableEq

/-- `Solver.search` read as a state transformer over its inputs: the
source contains no assignment to any input object or its contents (the
only arrays it mutates are the local `current`, restored by every
`pop`, and the local `results`), so the state-threaded embedding
returns the inputs unchanged. -/
def searchWithState (inp : SearchInputs) (maxResults : Int) :
    List CombinationResult × SearchInputs :=
  (Solver.search inp.buildingsBySlot inp.enabledSlots inp.targets inp.traitEffects maxResults,
    inp)

/-- Spec-side reading of a single building's trait bonus: look up the
building's non-empty trait name in the table; an empty trait name or an
absent key contributes zero. -/
def traitBonusOf (traitEffects : TraitTable) (b : Building) : Totals :=
  if b.trait ≠ "" then
    match traitEffects.lookup b.trait with
    | some e => ⟨e.agriculture, e.mining, e.military, e.commerce⟩
    | none => ⟨0, 0, 0, 0⟩
  else ⟨0, 0, 0, 0⟩

/-- The bonus-accumulation loop adds, per stat, exactly one
`traitBonusOf` contribution per building to the initial
accumulator. -/
theorem foldl_bonusStep (t : TraitTable) (bs : List Building) (init : Totals) :
    bs.foldl (TraitsManager.bonusStep t) init =
      ⟨init.agriculture + (bs.map fun b => (traitBonusOf t b).agriculture).sum,
       init.mining + (bs.map fun b => (traitBonusOf t b).mining).sum,
       init.military + (bs.map fun b => (traitBonusOf t b).military).sum,
       init.commerce + (bs.map fun b => (traitBonusOf t b).commerce).sum⟩ := by
  induction bs generalizing init with
  | nil => simp
  | cons b bs ih =>
    have hstep : TraitsManager.bonusStep t init b =
        ⟨init.agriculture + (traitBonusOf t b).agriculture,
         init.mining + (traitBonusOf t b).mining,
         init.military + (traitBonusOf t b).military,
         init.commerce + (traitBonusOf t b).commerce⟩ := by
      unfold TraitsManager.bonusStep traitBonusOf
      by_cases hb : b.trait = ""
      · simp [hb]
      · simp only [hb, ne_eq, not_false_eq_true, if_true]
        cases t.lookup b.trait <;> simp
    rw [List.foldl_cons, ih, hstep]
    simp [Totals.mk.injEq, Nat.add_assoc]

/-- The base-stat loop adds, per stat, exactly one base-stat
contribution per building to the initial accumulator. -/
theorem foldl_baseStep (bs : List Building) (init : Totals) :
    bs.foldl Solver.baseStep init =
      ⟨init.agriculture + (bs.map (·.agriculture)).sum,
       init.mining + (bs.map (·.mining)).sum,
       init.military + (bs.map (·.military)).sum,
       init.commerce + (bs.map (·.commerce)).sum⟩ := by
  induction bs generalizing init with
  | nil => simp
  | cons b bs ih =>
    rw [List.foldl_cons, ih]
    simp [Solver.baseStep, Totals.mk.injEq, Nat.add_assoc]

/-- **C1.** For every combination of chosen buildings and every trait
table, `Solver.calculateTotals` returns, per stat, the sum of the chosen
buildings' base stats plus the sum of the trait bonuses obtained by
looking up each building's non-empty trait name in the table — an empty
or unrecognized trait name contributing zero without error, and a
trait's bonus counted once per building that carries it. -/
theorem calculateTotals_eq_base_add_traitBonus (buildings : List Building)
    (traitEffects : TraitTable) :
    Solver.calculateTotals buildings traitEffects =
      ⟨(buildings.map (·.agriculture)).sum +
         (buildings.map fun b => (traitBonusOf traitEffects b).agriculture).sum,
       (buildings.map (·.mining)).sum +
         (buildings.map fun b => (traitBonusOf traitEffects b).mining).sum,
       (buildings.map (·.military)).sum +
         (buildings.map fun b => (traitBonusOf traitEffects b).military).sum,
       (buildings.map (·.commerce)).sum +
         (buildings.map fun b => (traitBonusOf traitEffects b).commerce).sum⟩ := by
  unfold Solver.calculateTotals TraitsManager.calculateTraitBonus
  rw [foldl_baseStep, foldl_bonusStep]
  simp

/-- **C2.** `Solver.countThresholds v` counts how many of the fixed
thresholds 15, 50, 75, 100 the value meets or exceeds, hence lies in
0..4, and `Solver.calculateThresholdScore` is the sum of the four
per-stat counts, hence lies in 0..16. -/
theorem countThresholds_spec :
    (∀ v : Nat,
      Solver.countThresholds v = Solver.THRESHOLDS.countP (fun t => decide (v ≥ t)) ∧
      Solver.countThresholds v ≤ 4) ∧
    (∀ totals : Totals,
      Solver.calculateThresholdScore totals =
        Solver.countThresholds totals.agriculture + Solver.countThresholds totals.mining +
          Solver.countThresholds totals.military + Solver.countThresholds totals.commerce ∧
      Solver.calculateThresholdScore totals ≤ 16) := by
  have hcount : ∀ v : Nat,
      Solver.countThresholds v = Solver.THRESHOLDS.countP (fun t => decide (v ≥ t)) ∧
      Solver.countThresholds v ≤ 4 := by
    intro v
    unfold Solver.countThresholds Solver.THRESHOLDS
    simp only [List.foldl_cons, List.foldl_nil, List.countP_cons, List.countP_nil, ge_iff_le]
    constructor
    · split_ifs <;> simp_all <;> omega
    · split_ifs <;> omega
  refine ⟨hcount, fun totals => ⟨rfl, ?_⟩⟩
  have h1 := (hcount totals.agriculture).2
  have h2 := (hcount totals.mining).2
  have h3 := (hcount totals.military).2
  have h4 := (hcount totals.commerce).2
  unfold Solver.calculateThresholdScore
  omega

/-- **C3.** A combination is kept by the search's filter exactly when it
was enumerated and, for each of the four stats, its total is at least
the corresponding target, a missing target read as 0; and a target
vector whose entries are all missing or all zero is satisfied by every
totals record. -/
theorem keptCombinations_iff_meetTargets :
    (∀ (bySlot : BuildingsBySlot) (enabled : List (String × Bool)) (targets : Targets)
        (tbl : TraitTable) (c : List Building),
      c ∈ Solver.keptCombinations bySlot enabled targets tbl ↔
        c ∈ Solver.enumeratedCombinations bySlot enabled ∧
          (Solver.calculateTotals c tbl).agriculture ≥ targets.agriculture.getD 0 ∧
          (Solver.calculateTotals c tbl).mining ≥ targets.mining.getD 0 ∧
          (Solver.calculateTotals c tbl).military ≥ targets.military.getD 0 ∧
          (Solver.calculateTotals c tbl).commerce ≥ targets.commerce.getD 0) ∧
    (∀ totals : Totals,
      Solver.meetTargets totals ⟨none, none, none, none⟩ = true ∧
      Solver.meetTargets totals ⟨some 0, some 0, some 0, some 0⟩ = true) := by
  constructor
  · intro bySlot enabled targets tbl c
    simp [Solver.keptCombinations, Solver.meetTargets, List.mem_filter, and_assoc]
  · intro totals
    simp [Solver.meetTargets]

instance : IsTotal CombinationResult Solver.scoreGE :=
  ⟨fun a b => le_total b.thresholdScore a.thresholdScore⟩

instance : IsTrans CombinationResult Solver.scoreGE :=
  ⟨fun _ _ _ hab hbc => le_trans hbc hab⟩

/-- Both branches of `jsSliceTo` are a `take`, hence a sublist. -/
theorem jsSliceTo_sublist (l : List α) (e : Int) : List.Sublist (jsSliceTo l e) l := by
  unfold jsSliceTo
  split_ifs <;> exact List.take_sublist _ _

/-- Inserting a result into a list leaves the subsequence of results of
any fixed threshold score unchanged, except that a result of that very
score is inserted in front of it: the key stability step, relying on
`orderedInsert` placing the new element before the first one it compares
no-later than. -/
theorem filter_orderedInsert_score (n : Nat) (a : CombinationResult)
    (l : List CombinationResult) :
    (l.orderedInsert Solver.scoreGE a).filter (fun r => r.thresholdScore == n) =
      if a.thresholdScore = n then
        a :: l.filter (fun r => r.thresholdScore == n)
      else l.filter (fun r => r.thresholdScore == n) := by
  induction l with
  | nil =>
    by_cases han : a.thresholdScore = n <;>
      simp [List.orderedInsert, List.filter_cons, han]
  | cons b l ih =>
    rw [List.orderedInsert]
    by_cases hab : Solver.scoreGE a b
    · rw [if_pos hab, List.filter_cons, List.filter_cons]
      by_cases han : a.thresholdScore = n <;> simp [han]
    · rw [if_neg hab]
      have hba : a.thresholdScore < b.thresholdScore := by
        simpa [Solver.scoreGE, Nat.not_le] using hab
      rw [List.filter_cons, List.filter_cons, ih]
      by_cases han : a.thresholdScore = n
      · have hbn : (b.thresholdScore == n) = false := by
          simp only [beq_eq_false_iff_ne, ne_eq]
          omega
        simp [han, hbn]
      · simp [han]

/-- Stability of the modelled sort: for every score, the subsequence of
results carrying that score is the same before and after sorting, i.e.
ties retain the emission order. -/
theorem filter_insertionSort_score (n : Nat) (l : List CombinationResult) :
    (l.insertionSort Solver.scoreGE).filter (fun r => r.thresholdScore == n) =
      l.filter (fun r => r.thresholdScore == n) := by
  induction l with
  | nil => rfl
  | cons a l ih =>
    rw [List.insertionSort, filter_orderedInsert_score, ih, List.filter_cons]
    by_cases h : a.thresholdScore = n <;> simp [h]

/-- **C4.** `Solver.search` returns the first `maxResults` entries of
the kept results sorted by threshold score descending; the output is
sorted, equal scores retain the depth-first slot-major emission order,
and for `m1 < m2` the output at `m1` is a prefix of the output at
`m2` (maxResults being a positive integer cap per the input
contract). -/
theorem search_sorted_stable_monotone (bySlot : BuildingsBySlot)
    (enabled : List (String × Bool)) (targets : Targets) (tbl : TraitTable) :
    (∀ m : Nat, Solver.search bySlot enabled targets tbl (m : Int) =
      (Solver.sortedResults bySlot enabled targets tbl).take m) ∧
    (∀ m : Int, (Solver.search bySlot enabled targets tbl m).Sorted Solver.scoreGE) ∧
    (∀ n : Nat,
      (Solver.sortedResults bySlot enabled targets tbl).filter
          (fun r => r.thresholdScore == n) =
        (Solver.searchResults bySlot enabled targets tbl).filter
          (fun r => r.thresholdScore == n)) ∧
    (∀ m1 m2 : Nat, m1 < m2 →
      Solver.search bySlot enabled targets tbl (m1 : Int) <+:
        Solver.search bySlot enabled targets tbl (m2 : Int)) := by
  have htake : ∀ m : Nat, Solver.search bySlot enabled targets tbl (m : Int) =
      (Solver.sortedResults bySlot enabled targets tbl).take m := by
    intro m
    unfold Solver.search jsSliceTo
    rw [if_neg (by omega)]
    simp
  refine ⟨htake, ?_, ?_, ?_⟩
  · intro m
    have hsorted : (Solver.sortedResults bySlot enabled targets tbl).Sorted Solver.scoreGE :=
      List.sorted_insertionSort Solver.scoreGE _
    exact hsorted.sublist (jsSliceTo_sublist _ _)
  · intro n
    exact filter_insertionSort_score n _
  · intro m1 m2 h12
    rw [htake m1, htake m2]
    have h : (Solver.sortedResults bySlot enabled targets tbl).take m1 =
        ((Solver.sortedResults bySlot enabled targets tbl).take m2).take m1 := by
      rw [List.take_take, min_eq_left (le_of_lt h12)]
    rw [h]
    exact List.take_prefix _ _

/-- A sample building used to instantiate theorems at concrete
inputs. -/
def exampleBuilding : Building := ⟨1, "sample", "主殿", "", 20, 0, 0, 0, ""⟩

/-- A one-slot catalogue holding `exampleBuilding` in the main hall. -/
def exampleBySlot : BuildingsBySlot := [("主殿", [exampleBuilding])]

/-- Only the main hall enabled. -/
def exampleEnabled : List (String × Bool) := [("mainHall", true)]

/-- The all-missing target vector (every stat unconstrained). -/
def exampleTargets : Targets := ⟨none, none, none, none⟩

/-- **C5 (amended).** A non-positive `maxResults` does not make `search`
fail, but it is not normalized to a positive default either: the code
returns `results.slice(0, maxResults)`, which is the empty list for
`maxResults = 0` and, for negative `maxResults`, the sorted results with
the last `|maxResults|` entries removed. -/
theorem search_nonpositive_maxResults (bySlot : BuildingsBySlot)
    (enabled : List (String × Bool)) (targets : Targets) (tbl : TraitTable) :
    Solver.search bySlot enabled targets tbl 0 = [] ∧
    (∀ m : Int, m < 0 →
      Solver.search bySlot enabled targets tbl m =
        (Solver.sortedResults bySlot enabled targets tbl).take
          (((Solver.sortedResults bySlot enabled targets tbl).length : Int) + m).toNat) := by
  constructor
  · unfold Solver.search jsSliceTo
    rw [if_neg (by omega)]
    simp
  · intro m hm
    unfold Solver.search jsSliceTo
    rw [if_pos hm]

/-- **C5 (counterexample).** With one slot containing one building and
no target constraint, one combination meets the targets, yet `search`
with `maxResults = 0` returns the empty list: non-positive `maxResults`
is not normalized to a sane positive default. -/
theorem search_zero_maxResults_counterexample :
    Solver.keptCombinations exampleBySlot exampleEnabled exampleTargets [] ≠ [] ∧
    Solver.search exampleBySlot exampleEnabled exampleTargets [] 0 = [] := by
  constructor
  · decide
  · decide

/-- Witness for **C5 (amended)**: at the concrete one-building input and
`maxResults = -1`, the theorem applies and evaluates to the empty
list. -/
theorem search_nonpositive_maxResults_witness :
    Solver.search exampleBySlot exampleEnabled exampleTargets [] (-1) = [] := by
  have h := (search_nonpositive_maxResults exampleBySlot exampleEnabled exampleTargets []).2
    (-1) (by omega)
  rw [h]
  decide

/-- Spec-side list of the candidate-list sizes of the enabled slots with
non-empty candidate lists, in entry order. -/
def activeSlotSizes (bySlot : BuildingsBySlot) (enabled : List (String × Bool)) : List Nat :=
  enabled.filterMap fun p =>
    if p.2 then
      match Solver.slotMapping p.1 with
      | some key =>
          let n := ((bySlot.lookup key).getD []).length
          if n > 0 then some n else none
      | none => none
    else none

/-- The `estimateCombinations` fold multiplies the accumulator by the
product of the active slot sizes. -/
theorem foldl_estimateStep (bySlot : BuildingsBySlot) (enabled : List (String × Bool))
    (acc : Nat) :
    enabled.foldl (Solver.estimateStep bySlot) acc = acc * (activeSlotSizes bySlot enabled).prod := by
  induction enabled generalizing acc with
  | nil => simp [activeSlotSizes]
  | cons p rest ih =>
    rw [List.foldl_cons, ih]
    simp only [activeSlotSizes, List.filterMap_cons]
    by_cases hp : p.2
    · simp only [hp, if_true]
      cases hkey : Solver.slotMapping p.1 with
      | none => simp [Solver.estimateStep, hkey, hp, activeSlotSizes]
      | some key =>
        by_cases hn : ((bySlot.lookup key).getD []).length > 0
        · simp [Solver.estimateStep, hkey, hp, hn, activeSlotSizes, Nat.mul_assoc]
        · simp [Solver.estimateStep, hkey, hp, hn, activeSlotSizes]
    · simp [Solver.estimateStep, hp, activeSlotSizes]

/-- The active slot sizes are exactly the lengths of the resolved
candidate lists, in order. -/
theorem activeSlotSizes_eq_map_resolved (bySlot : BuildingsBySlot)
    (enabled : List (String × Bool)) :
    activeSlotSizes bySlot enabled =
      (Solver.resolvedSlots bySlot enabled).map (fun p => p.2.length) := by
  induction enabled with
  | nil => rfl
  | cons p rest ih =>
    simp only [activeSlotSizes, Solver.resolvedSlots, List.filterMap_cons] at ih ⊢
    by_cases hp : p.2
    · simp only [hp, if_true]
      cases hkey : Solver.slotMapping p.1 with
      | none => simpa using ih
      | some key =>
        by_cases hn : ((bySlot.lookup key).getD []).length > 0
        · simp [hn, ih]
        · simp [hn, ih]
    · simpa [hp] using ih

/-- The number of emitted combinations is the product of the per-slot
candidate counts. -/
theorem length_generateCombinations (slots : List (List Building)) :
    (Solver.generateCombinations slots).length = (slots.map List.length).prod := by
  induction slots with
  | nil => rfl
  | cons s rest ih =>
    simp only [Solver.generateCombinations, List.map_cons, List.prod_cons]
    rw [List.length_flatMap]
    simp only [Function.comp_def, List.length_map]
    rw [List.map_const', List.sum_replicate, smul_eq_mul, ih]

/-- **C6 (amended).** `estimateCombinations` returns the product of the
candidate-list sizes of the enabled slots with non-empty candidate lists
(the empty product being 1), and this equals the number of full
combinations `search` enumerates whenever at least one slot survives
resolution; when none does, the estimate is 1 while `search` enumerates
no combination at all (it returns before the enumeration starts). -/
theorem estimateCombinations_spec (bySlot : BuildingsBySlot)
    (enabled : List (String × Bool)) :
    Solver.estimateCombinations bySlot enabled = (activeSlotSizes bySlot enabled).prod ∧
    (Solver.resolvedSlots bySlot enabled ≠ [] →
      (Solver.enumeratedCombinations bySlot enabled).length =
        Solver.estimateCombinations bySlot enabled) := by
  have h1 : Solver.estimateCombinations bySlot enabled =
      (activeSlotSizes bySlot enabled).prod := by
    unfold Solver.estimateCombinations
    rw [foldl_estimateStep]
    omega
  refine ⟨h1, fun hne => ?_⟩
  unfold Solver.enumeratedCombinations
  rw [if_neg (by simpa [List.length_eq_zero] using hne)]
  rw [length_generateCombinations, h1, activeSlotSizes_eq_map_resolved]
  simp [List.map_map, Function.comp_def]

/-- **C6 (counterexample).** With an empty catalogue and the main hall
enabled, `estimateCombinations` returns the empty product 1, while
`search` returns before enumerating anything, so it enumerates 0 full
combinations: the claimed equality fails when every enabled slot has an
empty candidate list. -/
theorem estimateCombinations_counterexample :
    Solver.estimateCombinations [] [("mainHall", true)] = 1 ∧
    (Solver.enumeratedCombinations ([] : BuildingsBySlot) [("mainHall", true)]).length = 0 ∧
    Solver.estimateCombinations [] [("mainHall", true)] ≠
      (Solver.enumeratedCombinations ([] : BuildingsBySlot) [("mainHall", true)]).length := by
  refine ⟨by decide, by decide, by decide⟩

/-- A three-slot catalogue with candidate-list sizes 3, 2 and 4. -/
def exampleBySlot324 : BuildingsBySlot :=
  [("主殿", [exampleBuilding, exampleBuilding, exampleBuilding]),
   ("城牆", [exampleBuilding, exampleBuilding]),
   ("廣場", [exampleBuilding, exampleBuilding, exampleBuilding, exampleBuilding])]

/-- Main hall, city wall and plaza enabled. -/
def exampleEnabled3 : List (String × Bool) :=
  [("mainHall", true), ("cityWall", true), ("plaza", true)]

/-- Witness for **C6 (amended)**: with slot sizes 3, 2 and 4 the
estimate is 24 and matches the number of enumerated combinations. -/
theorem estimateCombinations_spec_witness :
    Solver.estimateCombinations exampleBySlot324 exampleEnabled3 = 24 ∧
    (Solver.enumeratedCombinations exampleBySlot324 exampleEnabled3).length =
      Solver.estimateCombinations exampleBySlot324 exampleEnabled3 :=
  ⟨by decide, (estimateCombinations_spec exampleBySlot324 exampleEnabled3).2 (by decide)⟩

/-- **C7.** `search` silently drops every enabled slot whose candidate
list is empty: no resolved slot carries an empty list, removing an
enabled slot with an empty candidate list from the enabled entries
leaves the resolution unchanged, and when no slot survives resolution —
in particular when every enabled slot has an empty candidate list —
`search` returns the empty list without error. -/
theorem search_drops_empty_slots (bySlot : BuildingsBySlot)
    (enabled : List (String × Bool)) :
    (∀ p ∈ Solver.resolvedSlots bySlot enabled, p.2 ≠ []) ∧
    (∀ (slot key : String) (e1 e2 : List (String × Bool)),
      Solver.slotMapping slot = some key →
      (bySlot.lookup key).getD [] = [] →
      Solver.resolvedSlots bySlot (e1 ++ (slot, true) :: e2) =
        Solver.resolvedSlots bySlot (e1 ++ e2)) ∧
    (Solver.resolvedSlots bySlot enabled = [] →
      ∀ (targets : Targets) (tbl : TraitTable) (m : Int),
        Solver.search bySlot enabled targets tbl m = []) := by
  refine ⟨?_, ?_, ?_⟩
  · intro p hp
    simp only [Solver.resolvedSlots, List.mem_filterMap] at hp
    obtain ⟨a, -, hfa⟩ := hp
    by_cases ha : a.2
    · simp only [ha, if_true] at hfa
      cases hkey : Solver.slotMapping a.1 with
      | none => simp [hkey] at hfa
      | some key =>
        simp only [hkey] at hfa
        by_cases hn : ((bySlot.lookup key).getD []).length > 0
        · simp only [hn, if_true, Option.some.injEq] at hfa
          subst hfa
          exact List.length_pos.mp hn
        · simp [hn] at hfa
    · simp [ha] at hfa
  · intro slot key e1 e2 hkey hempty
    unfold Solver.resolvedSlots
    rw [List.filterMap_append, List.filterMap_append, List.filterMap_cons]
    simp [hkey, hempty]
  · intro hres targets tbl m
    unfold Solver.search Solver.sortedResults Solver.searchResults Solver.keptCombinations
      Solver.enumeratedCombinations
    simp [hres, jsSliceTo]

/-- A catalogue whose only slot entry is an empty main-hall list. -/
def exampleBySlotEmpty : BuildingsBySlot := [("主殿", [])]

/-- Witness for **C7**: removing an enabled main-hall with an empty
candidate list leaves the resolution unchanged, and with every enabled
slot empty `search` returns `[]`. -/
theorem search_drops_empty_slots_witness :
    Solver.resolvedSlots exampleBySlotEmpty ([] ++ ("mainHall", true) :: []) =
      Solver.resolvedSlots exampleBySlotEmpty ([] ++ []) ∧
    Solver.search exampleBySlotEmpty [("mainHall", true), ("cityWall", true)]
      ⟨none, none, none, none⟩ [] 5 = [] := by
  constructor
  · exact (search_drops_empty_slots exampleBySlotEmpty []).2.1 "mainHall" "主殿" [] []
      (by decide) (by decide)
  · exact (search_drops_empty_slots exampleBySlotEmpty
      [("mainHall", true), ("cityWall", true)]).2.2 (by decide) ⟨none, none, none, none⟩ [] 5

/-- Spec-side reading of the non-zero stat deltas with their stat
abbreviations, in the source's fixed stat order. -/
def traitDeltaStrings (e : TraitEffect) : List String :=
  ([("農+", e.agriculture), ("礦+", e.mining), ("軍+", e.military), ("商+", e.commerce)]).filterMap
    fun p => if p.2 ≠ 0 then some (p.1 ++ toString p.2) else none

/-- The `parts` array of the formatter is exactly the spec-side list of
non-zero deltas. -/
theorem descParts_eq_traitDeltaStrings (e : TraitEffect) :
    TraitsManager.descParts e = traitDeltaStrings e := by
  unfold TraitsManager.descParts traitDeltaStrings
  simp only [List.filterMap_cons, List.filterMap_nil]
  split_ifs <;> simp

/-- The `parts` array is empty exactly when all four numeric deltas are
zero. -/
theorem descParts_eq_nil_iff (e : TraitEffect) :
    TraitsManager.descParts e = [] ↔
      e.agriculture = 0 ∧ e.mining = 0 ∧ e.military = 0 ∧ e.commerce = 0 := by
  unfold TraitsManager.descParts
  split_ifs <;> simp_all

/-- **C8.** The trait-description formatter returns the empty string
when the building has no trait; the trait name with the unknown-trait
marker when the trait is absent from the table; otherwise the
concatenation of the trait's non-zero stat deltas with their stat
abbreviations, falling back, when all four numeric deltas are zero, to
the trait's free-text extra effect if present and to the bare trait name
otherwise. -/
theorem getTraitDescription_spec (b : Building) (traits : TraitTable) :
    (b.trait = "" → TraitsManager.getTraitDescription b traits = "") ∧
    (b.trait ≠ "" → traits.lookup b.trait = none →
      TraitsManager.getTraitDescription b traits = b.trait ++ " (未知特性)") ∧
    (∀ e : TraitEffect, b.trait ≠ "" → traits.lookup b.trait = some e →
      ¬(e.agriculture = 0 ∧ e.mining = 0 ∧ e.military = 0 ∧ e.commerce = 0) →
      TraitsManager.getTraitDescription b traits =
        b.trait ++ ": " ++ String.intercalate " " (traitDeltaStrings e)) ∧
    (∀ e : TraitEffect, b.trait ≠ "" → traits.lookup b.trait = some e →
      e.agriculture = 0 ∧ e.mining = 0 ∧ e.military = 0 ∧ e.commerce = 0 →
      e.extraEffect ≠ "" →
      TraitsManager.getTraitDescription b traits = b.trait ++ ": " ++ e.extraEffect) ∧
    (∀ e : TraitEffect, b.trait ≠ "" → traits.lookup b.trait = some e →
      e.agriculture = 0 ∧ e.mining = 0 ∧ e.military = 0 ∧ e.commerce = 0 →
      e.extraEffect = "" →
      TraitsManager.getTraitDescription b traits = b.trait) := by
  refine ⟨?_, ?_, ?_, ?_, ?_⟩
  · intro h
    simp [TraitsManager.getTraitDescription, h]
  · intro h hnone
    simp [TraitsManager.getTraitDescription, h, hnone]
  · intro e h hsome hnz
    have hparts : TraitsManager.descParts e ≠ [] := by
      rw [ne_eq, descParts_eq_nil_iff]
      exact hnz
    rw [descParts_eq_traitDeltaStrings] at hparts
    simp [TraitsManager.getTraitDescription, h, hsome, descParts_eq_traitDeltaStrings, hparts]
  · intro e h hsome hz hfx
    have hparts : TraitsManager.descParts e = [] := (descParts_eq_nil_iff e).mpr hz
    simp [TraitsManager.getTraitDescription, h, hsome, hparts, hfx]
  · intro e h hsome hz hfx
    have hparts : TraitsManager.descParts e = [] := (descParts_eq_nil_iff e).mpr hz
    simp [TraitsManager.getTraitDescription, h, hsome, hparts, hfx]

/-- A building carrying the trait `"t1"`. -/
def exampleTraitBuilding : Building := ⟨2, "shrine", "主殿", "", 0, 0, 0, 0, "t1"⟩

/-- A trait table defining `"t1"` with one non-zero delta. -/
def exampleTraitTable : TraitTable := [("t1", ⟨5, 0, 0, 0, "fx"⟩)]

/-- Witness for **C8**: at a concrete building and table every
applicable branch of the theorem evaluates — a non-zero delta renders as
the joined parts, and an unknown trait renders as the marker. -/
theorem getTraitDescription_spec_witness :
    TraitsManager.getTraitDescription exampleTraitBuilding exampleTraitTable =
      "t1" ++ ": " ++ String.intercalate " " (traitDeltaStrings ⟨5, 0, 0, 0, "fx"⟩) ∧
    TraitsManager.getTraitDescription exampleTraitBuilding [] = "t1" ++ " (未知特性)" :=
  ⟨(getTraitDescription_spec exampleTraitBuilding exampleTraitTable).2.2.1 ⟨5, 0, 0, 0, "fx"⟩
      (by decide) (by decide) (by decide),
    (getTraitDescription_spec exampleTraitBuilding []).2.1 (by decide) (by decide)⟩

/-- Every `current.pop()` undoes the matching `current.push(building)`:
the depth-first generator leaves its `current` array exactly as it found
it, at every recursion depth. -/
theorem generateCombinationsSt_preserves_current :
    ∀ (slots : List (List Building)) (current : List Building),
      (Solver.generateCombinationsSt slots current).2 = current := by
  intro slots
  induction slots with
  | nil =>
    intro current
    rw [Solver.generateCombinationsSt]
  | cons s rest ih =>
    have hloop : ∀ (bs current : _), (Solver.genLoop bs rest current).2 = current := by
      intro bs
      induction bs with
      | nil =>
        intro current
        rw [Solver.genLoop]
      | cons b bs ihb =>
        intro current
        rw [Solver.genLoop]
        simp only [ih (current ++ [b])]
        rw [show (current ++ [b]).dropLast = current by simp]
        exact ihb current
    intro current
    rw [Solver.generateCombinationsSt]
    exact hloop s current

/-- The state-threaded generator emits exactly the pure
`generateCombinations` output, each combination prefixed by the
`current` it started from. -/
theorem generateCombinationsSt_fst :
    ∀ (slots : List (List Building)) (current : List Building),
      (Solver.generateCombinationsSt slots current).1 =
        (Solver.generateCombinations slots).map (fun c => current ++ c) := by
  intro slots
  induction slots with
  | nil =>
    intro current
    rw [Solver.generateCombinationsSt]
    simp [Solver.generateCombinations]
  | cons s rest ih =>
    have hloop : ∀ (bs current : _),
        (Solver.genLoop bs rest current).1 =
          bs.flatMap fun b =>
            (Solver.generateCombinations rest).map fun c => current ++ b :: c := by
      intro bs
      induction bs with
      | nil =>
        intro current
        rw [Solver.genLoop]
        simp
      | cons b bs ihb =>
        intro current
        rw [Solver.genLoop]
        simp only [generateCombinationsSt_preserves_current rest (current ++ [b])]
        rw [show (current ++ [b]).dropLast = current by simp]
        simp only [ih (current ++ [b]), ihb current, List.flatMap_cons]
        congr 1
        simp [List.append_assoc]
    intro current
    rw [Solver.generateCombinationsSt]
    simp only [hloop s current, Solver.generateCombinations]
    rw [List.map_flatMap]
    congr 1
    funext b
    simp

/-- **C9.** `search` never mutates its inputs: read as a state
transformer over the record of its four inputs, it returns the inputs
unchanged — the source assigns to no input object; its only mutable
arrays are the local `results` and the depth-first `current`, and the
latter is restored by every `pop`, as the second conjunct states for the
state-threaded generator at every recursion depth. -/
theorem search_preserves_inputs :
    (∀ (inp : SearchInputs) (m : Int), (searchWithState inp m).2 = inp) ∧
    (∀ (slots : List (List Building)) (current : List Building),
      (Solver.generateCombinationsSt slots current).2 = current) :=
  ⟨fun _ _ => rfl, generateCombinationsSt_preserves_current⟩

/-- Every emitted combination chooses exactly one building per slot. -/
theorem length_of_mem_generateCombinations :
    ∀ (slots : List (List Building)) (c : List Building),
      c ∈ Solver.generateCombinations slots → c.length = slots.length := by
  intro slots
  induction slots with
  | nil =>
    intro c hc
    simp only [Solver.generateCombinations, List.mem_singleton] at hc
    simp [hc]
  | cons s rest ih =>
    intro c hc
    simp only [Solver.generateCombinations, List.mem_flatMap, List.mem_map] at hc
    obtain ⟨b, -, c', hc', rfl⟩ := hc
    simp [ih c' hc']

/-- Tagging a combination with slot names by index recovers exactly the
slot-name list when the lengths agree. -/
theorem map_slot_zipWith :
    ∀ (c : List Building) (names : List String), c.length = names.length →
      (List.zipWith (fun b n => (⟨n, b⟩ : SlotAssignment)) c names).map (·.slot) = names := by
  intro c
  induction c with
  | nil =>
    intro names h
    cases names with
    | nil => rfl
    | cons n names => simp at h
  | cons b c ih =>
    intro names h
    cases names with
    | nil => simp at h
    | cons n names =>
      simp only [List.zipWith_cons_cons, List.map_cons, List.cons.injEq, true_and]
      exact ih names (by simpa using h)

/-- **C10.** Every result `search` returns is internally consistent: its
buildings list pairs exactly one building with each retained slot's
physical name, in resolution order; each `thresholdDetails` entry is
`countThresholds` of the corresponding stat of its totals; and its
`thresholdScore` is the sum of the four `thresholdDetails` entries. -/
theorem search_result_consistency (bySlot : BuildingsBySlot)
    (enabled : List (String × Bool)) (targets : Targets) (tbl : TraitTable)
    (m : Int) (res : CombinationResult)
    (hres : res ∈ Solver.search bySlot enabled targets tbl m) :
    res.buildings.map (·.slot) = (Solver.resolvedSlots bySlot enabled).map (·.1) ∧
    res.buildings.length = (Solver.resolvedSlots bySlot enabled).length ∧
    res.thresholdDetails.agriculture = Solver.countThresholds res.totals.agriculture ∧
    res.thresholdDetails.mining = Solver.countThresholds res.totals.mining ∧
    res.thresholdDetails.military = Solver.countThresholds res.totals.military ∧
    res.thresholdDetails.commerce = Solver.countThresholds res.totals.commerce ∧
    res.thresholdScore = res.thresholdDetails.agriculture + res.thresholdDetails.mining +
      res.thresholdDetails.military + res.thresholdDetails.commerce := by
  have h1 : res ∈ Solver.sortedResults bySlot enabled targets tbl :=
    (jsSliceTo_sublist _ _).subset hres
  have h2 : res ∈ Solver.searchResults bySlot enabled targets tbl :=
    (List.perm_insertionSort Solver.scoreGE _).subset h1
  simp only [Solver.searchResults, List.mem_map] at h2
  obtain ⟨c, hc, rfl⟩ := h2
  have hc' : c ∈ Solver.enumeratedCombinations bySlot enabled :=
    List.mem_of_mem_filter hc
  by_cases hres0 : (Solver.resolvedSlots bySlot enabled).length = 0
  · rw [Solver.enumeratedCombinations] at hc'
    simp [hres0] at hc'
  · rw [Solver.enumeratedCombinations, if_neg hres0] at hc'
    have hlen : c.length = (Solver.resolvedSlots bySlot enabled).length := by
      simpa using length_of_mem_generateCombinations _ c hc'
    have hnames : ((Solver.resolvedSlots bySlot enabled).map (·.1)).length =
        (Solver.resolvedSlots bySlot enabled).length := List.length_map _ _
    refine ⟨?_, ?_, rfl, rfl, rfl, rfl, rfl⟩
    · exact map_slot_zipWith c _ (by rw [hlen, hnames])
    · simp [Solver.buildResult, List.length_zipWith, hlen]

/-- The single result of searching the one-building example
catalogue. -/
def exampleResult : CombinationResult :=
  { buildings := [⟨"主殿", exampleBuilding⟩]
    totals := ⟨20, 0, 0, 0⟩
    thresholdScore := 1
    thresholdDetails := ⟨1, 0, 0, 0⟩ }

/-- Witness for **C10**: the concrete result returned for the
one-building catalogue satisfies every consistency conjunct. -/
theorem search_result_consistency_witness :
    exampleResult.buildings.map (·.slot) =
      (Solver.resolvedSlots exampleBySlot exampleEnabled).map (·.1) ∧
    exampleResult.buildings.length = (Solver.resolvedSlots exampleBySlot exampleEnabled).length ∧
    exampleResult.thresholdDetails.agriculture =
      Solver.countThresholds exampleResult.totals.agriculture ∧
    exampleResult.thresholdDetails.mining =
      Solver.countThresholds exampleResult.totals.mining ∧
    exampleResult.thresholdDetails.military =
      Solver.countThresholds exampleResult.totals.military ∧
    exampleResult.thresholdDetails.commerce =
      Solver.countThresholds exampleResult.totals.commerce ∧
    exampleResult.thresholdScore = exampleResult.thresholdDetails.agriculture +
      exampleResult.thresholdDetails.mining + exampleResult.thresholdDetails.military +
      exampleResult.thresholdDetails.commerce :=
  search_result_consistency exampleBySlot exampleEnabled exampleTargets [] 5 exampleResult
    (by decide)

/-- Witness for **C4**: at the concrete one-building input, the output
for `maxResults = 1` is a prefix of the output for `maxResults = 2`. -/
theorem search_sorted_stable_monotone_witness :
    Solver.search exampleBySlot exampleEnabled exampleTargets [] ((1 : Nat) : Int) <+:
      Solver.search exampleBySlot exampleEnabled exampleTargets [] ((2 : Nat) : Int) :=
  (search_sorted_stable_monotone exampleBySlot exampleEnabled exampleTargets []).2.2.2 1 2
    (by omega)
